import Mathlib

/-!
Verification of the price-comparison API (`src/main.py`).

Shallow embedding of the price aggregation / alerting subsystem of the
FastAPI + SQLite application in `src/main.py`, together with theorems
settling the behavioural claims about it.

Conventions of the embedding:
* SQLite `REAL` prices are embedded as `Rat` (the recorded prices are
  decimals such as `5999.00`; the operations the claims are about are
  comparisons, minima and one exact per-day average).
* `TIMESTAMP` values are embedded as `Nat` seconds since the epoch;
  the SQLite `DATE(timestamp)` becomes division by `86400`.
* A database is the triple of tables created by `init_db` (`products`,
  `prices`, `price_alerts`); rows carry their `INTEGER PRIMARY KEY`
  rowid, and a table is a list of rows in rowid (insertion) order, the
  order in which SQLite scans an un-indexed table.
* `datetime.now()` is passed explicitly as a `now : Nat` parameter.
-/

/-- A row of the `products` table (`id INTEGER PRIMARY KEY, name TEXT UNIQUE,
category TEXT, created_at`).  `created_at` is never read by the code under
verification, so it is omitted. -/
structure ProductRow where
  id : Nat
  name : String
  category : String
  deriving Repr, DecidableEq

/-- A row of the `prices` table (`id, product_id, platform, price REAL, url,
timestamp`). -/
structure PriceRow where
  rowid : Nat
  product_id : Nat
  platform : String
  price : Rat
  url : String
  timestamp : Nat
  deriving Repr, DecidableEq

/-- A row of the `price_alerts` table (`id, product_id, target_price REAL,
user_email, created_at`). -/
structure AlertRow where
  rowid : Nat
  product_id : Nat
  target_price : Rat
  user_email : String
  deriving Repr, DecidableEq

/-- The SQLite database `prices.db` after `init_db`: three tables.  Each list
is in rowid order.  (`id INTEGER PRIMARY KEY` makes rowids unique; none of the
claims proved below needs that invariant, so it is not imposed on the type.) -/
structure Db where
  products : List ProductRow
  prices : List PriceRow
  alerts : List AlertRow
  deriving Repr, DecidableEq

/-- The observations (rows of `prices`) for one product:
`SELECT ... FROM prices WHERE product_id = ?`, in table-scan (rowid) order. -/
def obsFor (product_id : Nat) (db : Db) : List PriceRow :=
  db.prices.filter (fun r => r.product_id == product_id)

/-- The SQLite `min()` aggregate step over a scan starting at row `r`:
the running best is replaced only when a strictly smaller price arrives, so
the row that survives is the FIRST row (in scan order) attaining the minimal
price.  Bare columns of a `MIN(...)` query (`pr.platform`, `pr.url`,
`pr.timestamp`) take their values from this surviving row. -/
def pickMin (r : PriceRow) (l : List PriceRow) : PriceRow :=
  l.foldl (fun best x => if x.price < best.price then x else best) r

/-- The row supplying `MIN(pr.price)` and the accompanying bare columns for a
product, or `none` when the product has no observations (the `NULL` row a
`LEFT JOIN ... GROUP BY` produces). -/
def bestObs (product_id : Nat) (db : Db) : Option PriceRow :=
  match obsFor product_id db with
  | [] => none
  | r :: rs => some (pickMin r rs)

/-- The relation `ORDER BY timestamp DESC` induces on price rows.  SQLite leaves the relative
order of equal timestamps unspecified; the embedding resolves such ties by
rowid, the order of the underlying table scan. -/
def tsDesc (a b : PriceRow) : Prop :=
  b.timestamp < a.timestamp ∨ (a.timestamp = b.timestamp ∧ a.rowid ≤ b.rowid)

instance : DecidableRel tsDesc := fun a b => by
  unfold tsDesc; infer_instance

instance : IsTotal PriceRow tsDesc := by
  constructor
  intro a b
  rcases Nat.lt_trichotomy a.timestamp b.timestamp with h | h | h
  · exact Or.inr (Or.inl h)
  · rcases Nat.le_total a.rowid b.rowid with h' | h'
    · exact Or.inl (Or.inr ⟨h, h'⟩)
    · exact Or.inr (Or.inr ⟨h.symm, h'⟩)
  · exact Or.inl (Or.inl h)

instance : IsTrans PriceRow tsDesc := by
  constructor
  intro a b c hab hbc
  rcases hab with h1 | ⟨e1, r1⟩
  · rcases hbc with h2 | ⟨e2, _⟩
    · exact Or.inl (h2.trans h1)
    · exact Or.inl (e2 ▸ h1)
  · rcases hbc with h2 | ⟨e2, r2⟩
    · exact Or.inl (e1 ▸ h2)
    · exact Or.inr ⟨e1.trans e2, r1.trans r2⟩

/-- One element of the `prices` array returned by `GET /api/prices/{id}`. -/
structure PriceEntry where
  platform : String
  price : Rat
  url : String
  timestamp : Nat
  deriving Repr, DecidableEq

/-- The JSON object returned by `GET /api/prices/{id}` on success. -/
structure PricesResponse where
  product_id : Nat
  product_name : String
  prices : List PriceEntry
  lowest_price : Rat
  deriving Repr, DecidableEq

/-- Python `min` over a non-empty list of prices (`min([p.price for p in prices])`). -/
def pyMin (q : Rat) (qs : List Rat) : Rat :=
  qs.foldl min q

/-- Endpoint `GET /api/prices/` (`get_product_prices` in `src/main.py`):
404 when no product has the requested id; otherwise the (at most 20) most
recent price rows, most-recent-first (`ORDER BY timestamp DESC LIMIT 20`),
and `lowest_price = min(...) if prices else 0` over those returned rows. -/
def get_product_prices (product_id : Nat) (db : Db) : Except Nat PricesResponse :=
  match db.products.find? (fun p => p.id == product_id) with
  | none => Except.error 404
  | some p =>
    let rows := ((obsFor product_id db).insertionSort tsDesc).take 20
    let entries := rows.map (fun r => PriceEntry.mk r.platform r.price r.url r.timestamp)
    Except.ok
      { product_id := product_id
        product_name := p.name
        prices := entries
        lowest_price :=
          match entries.map PriceEntry.price with
          | [] => 0
          | q :: qs => pyMin q qs }

/-- The trailing window of `get_price_trend`: 7 days in seconds
(`datetime.now() - timedelta(days=7)`). -/
def week : Nat := 7 * 86400

/-- SQLite `DATE(timestamp)` on an epoch-second timestamp: the day number. -/
def dayOf (t : Nat) : Nat := t / 86400

/-- The price rows scanned by the query of `get_price_trend`:
`WHERE product_id = ? AND timestamp >= ?` with `? = now - week`. -/
def windowRows (product_id now : Nat) (db : Db) : List PriceRow :=
  db.prices.filter (fun r => r.product_id == product_id && now - week ≤ r.timestamp)

/-- The prices that fall in one `GROUP BY DATE(timestamp)` group. -/
def dayPrices (product_id now d : Nat) (db : Db) : List Rat :=
  ((windowRows product_id now db).filter (fun r => dayOf r.timestamp == d)).map PriceRow.price

/-- SQLite `AVG(price)` over a group, exactly. -/
def mean (l : List Rat) : Rat := l.sum / l.length

/-- Reverse order on `Nat`, for `ORDER BY ... DESC` on day numbers. -/
def natGe (a b : Nat) : Prop := b ≤ a

instance : DecidableRel natGe := fun a b => by unfold natGe; infer_instance

instance : IsTotal Nat natGe := ⟨fun a b => (Nat.le_total b a).imp id id⟩

instance : IsTrans Nat natGe := ⟨fun _ _ _ hab hbc => Nat.le_trans hbc hab⟩

/-- The day groups surviving `GROUP BY DATE(timestamp) ORDER BY timestamp DESC
LIMIT 7`.  Every row of one group shares the same `DATE`, so ordering groups by
any representative `timestamp` (the bare-column pick of SQLite) is ordering them by
day, descending; `LIMIT 7` keeps the 7 most recent days. -/
def trendDays (product_id now : Nat) (db : Db) : List Nat :=
  ((((windowRows product_id now db).map (fun r => dayOf r.timestamp)).dedup).insertionSort
      natGe).take 7

/-- Day/average pairs of `get_price_trend`, in the order the endpoint returns
them (`prices[::-1]` reverses the `DESC` rows into ascending day order). -/
def trendPairs (product_id now : Nat) (db : Db) : List (Nat × Rat) :=
  ((trendDays product_id now db).map
    (fun d => (d, mean (dayPrices product_id now d db)))).reverse

/-- Function `get_price_trend` in `src/main.py`: the per-day `AVG(price)` values of the
most recent (≤ 7) days with observations in the trailing week, oldest first. -/
def get_price_trend (product_id now : Nat) (db : Db) : List Rat :=
  (trendPairs product_id now db).map Prod.snd

/-- One element of the `products` array of `GET /api/products`. -/
structure ProductEntry where
  id : Nat
  name : String
  category : String
  lowest_price : Rat
  platform : String
  url : String
  price_trend : List Rat
  deriving Repr, DecidableEq

/-- The Python `x or d` coalescing applied to a string drawn from SQL: `None`
(SQL `NULL`) and the empty string are both falsy and replaced by `d`. -/
def strOr (x d : String) : String := if x = "" then d else x

/-- Build one response row of `GET /api/products` from a product and the
`MIN`-row of its group (`none` when the `LEFT JOIN` matched no price row).
`row[3] or 0` maps `NULL` to `0` (and keeps any actual price, since `0.0 or 0`
is again `0`); the `or` defaults `N/A` and `#` likewise coalesce. -/
def productEntry (now : Nat) (db : Db) : ProductRow × Option PriceRow → ProductEntry
  | (p, none) =>
      ProductEntry.mk p.id p.name p.category 0 "N/A" "#" (get_price_trend p.id now db)
  | (p, some b) =>
      ProductEntry.mk p.id p.name p.category b.price (strOr b.platform "N/A")
        (strOr b.url "#") (get_price_trend p.id now db)

/-- Sort relation of `ORDER BY pr.timestamp DESC` in `get_all_products`: the sort key is the
bare-column timestamp of the `MIN`-row of each group, `NULL` (no observations)
sorting below every value, hence last under `DESC`. -/
def groupKey (x : ProductRow × Option PriceRow) : WithBot Nat :=
  match x.2 with
  | none => ⊥
  | some b => (b.timestamp : WithBot Nat)

def groupTsDesc (a b : ProductRow × Option PriceRow) : Prop :=
  groupKey b ≤ groupKey a

instance : DecidableRel groupTsDesc := fun a b => by unfold groupTsDesc; infer_instance

instance : IsTotal (ProductRow × Option PriceRow) groupTsDesc :=
  ⟨fun a b => (le_total (groupKey b) (groupKey a)).imp id id⟩

instance : IsTrans (ProductRow × Option PriceRow) groupTsDesc :=
  ⟨fun _ _ _ hab hbc => le_trans hbc hab⟩

/-- Endpoint `GET /api/products` (`get_all_products` in `src/main.py`): one row per
product from `products LEFT JOIN prices ... GROUP BY p.id ORDER BY
pr.timestamp DESC`, each carrying `MIN(pr.price)` (or the coalesced defaults)
and the 7-day trend of the product. -/
def get_all_products (now : Nat) (db : Db) : List ProductEntry :=
  ((db.products.map (fun p => (p, bestObs p.id db))).insertionSort groupTsDesc).map
    (productEntry now db)

/-- One element of the `deals` array of `GET /api/deals`. -/
structure Deal where
  id : Nat
  name : String
  price : Rat
  platform : String
  deriving Repr, DecidableEq

/-- Sort relation of `ORDER BY pr.price ASC` in `get_best_deals`: `pr.price` is a bare column
of the `MIN` aggregate, hence the minimal price of the group itself. -/
def dealLe (a b : Deal) : Prop := a.price ≤ b.price

instance : DecidableRel dealLe := fun a b => by unfold dealLe; infer_instance

instance : IsTotal Deal dealLe := ⟨fun a b => le_total a.price b.price⟩

instance : IsTrans Deal dealLe := ⟨fun _ _ _ hab hbc => le_trans hab hbc⟩

/-- Endpoint `GET /api/deals` (`get_best_deals` in `src/main.py`): the inner
`JOIN prices` drops products without observations, `GROUP BY p.id` yields each
remaining product the `MIN(pr.price)` row, `ORDER BY pr.price ASC LIMIT 10`
sorts by that minimum and truncates. -/
def get_best_deals (db : Db) : List Deal :=
  (((db.products.filterMap (fun p => (bestObs p.id db).map
      (fun b => Deal.mk p.id p.name b.price b.platform))).insertionSort dealLe).take 10)

/-- The JSON body of `POST /api/alerts` (pydantic model `PriceAlert`). -/
structure AlertInput where
  product_id : Nat
  target_price : Rat
  user_email : String
  deriving Repr, DecidableEq

/-- The next `INTEGER PRIMARY KEY` SQLite assigns on insert into
`price_alerts`: one more than the largest existing rowid. -/
def nextAlertId (db : Db) : Nat :=
  (db.alerts.map AlertRow.rowid).foldl max 0 + 1

/-- Endpoint `POST /api/alerts` (`create_price_alert` in `src/main.py`): inserts the
row and answers `status: success`.  The handler performs no validation, and
sqlite3 does not enforce the declared foreign key by default (`PRAGMA
foreign_keys` is off), so the insert succeeds for any body. -/
def create_price_alert (a : AlertInput) (db : Db) : String × Db :=
  ("success",
   { db with
      alerts := db.alerts ++ [AlertRow.mk (nextAlertId db) a.product_id a.target_price a.user_email] })

/-- Errors a sqlite3 statement can raise in this program. -/
inductive SqlError where
  | operationalError (msg : String)
  deriving Repr, DecidableEq

/-- The product-lookup statement of `search_product`:
`SELECT id FROM products WHERE name ILIKE ?`.  `ILIKE` is PostgreSQL syntax;
the SQLite grammar has no such operator, so `cursor.execute` raises
`sqlite3.OperationalError` before any row is matched, whatever the query
string or database contents. -/
def ilikeLookup (_q : String) (_db : Db) : Except SqlError (Option Nat) :=
  Except.error (SqlError.operationalError "near ILIKE: syntax error")

/-- The next `INTEGER PRIMARY KEY` for an insert into `products`. -/
def nextProductId (db : Db) : Nat :=
  (db.products.map ProductRow.id).foldl max 0 + 1

/-- The success body of `GET /api/search`. -/
structure SearchResponse where
  product_id : Nat
  query : String
  status : String
  deriving Repr, DecidableEq

/-- Endpoint `GET /api/search` (`search_product` in `src/main.py`), up to scheduling
the background scrape.  Errors are `(HTTP status, detail)`: a query shorter
than 2 characters is rejected with 400; otherwise the `ILIKE` lookup runs
and its `OperationalError` escapes the handler, which FastAPI reports as a
plain 500.  The resolve-or-create continuation below the lookup is kept for
completeness but is unreachable. -/
def search_product (q : String) (db : Db) : Except (Nat × String) (SearchResponse × Db) :=
  if q.length < 2 then
    Except.error (400, "Query must be at least 2 characters")
  else
    match ilikeLookup q db with
    | Except.error _ => Except.error (500, "Internal Server Error")
    | Except.ok none =>
        let db' := { db with
          products := db.products ++ [ProductRow.mk (nextProductId db) q "General"] }
        Except.ok (SearchResponse.mk (nextProductId db) q "in_progress", db')
    | Except.ok (some pid) =>
        Except.ok (SearchResponse.mk pid q "in_progress", db)

/-- Whether the guarded body of a scraper (the `requests.get` call and the
HTML parsing inside the `try:` block) ran to completion or raised. -/
inductive FetchOutcome where
  | ok
  | failure
  deriving Repr, DecidableEq

/-- What a scraper hands back on success. -/
structure ScrapeResult where
  platform : String
  price : Rat
  url : String
  deriving Repr, DecidableEq

/-- The value `scrape_amazon` builds when nothing raised (the price is the
hard-coded demo value). -/
def amazonResult (product_name : String) : ScrapeResult :=
  ScrapeResult.mk "Amazon" 5999 ("https://www.amazon.in/s?k=" ++ product_name)

/-- The value `scrape_flipkart` builds when nothing raised. -/
def flipkartResult (product_name : String) : ScrapeResult :=
  ScrapeResult.mk "Flipkart" 5499 ("https://www.flipkart.com/search?q=" ++ product_name)

/-- Function `scrape_amazon` in `src/main.py`: the whole body sits in
`try: ... except Exception: return None`, so a raising fetch/parse yields
`None` and a completed one yields the result dict. -/
def scrape_amazon (product_name : String) (outcome : FetchOutcome) : Option ScrapeResult :=
  match outcome with
  | FetchOutcome.ok => some (amazonResult product_name)
  | FetchOutcome.failure => none

/-- Function `scrape_flipkart` in `src/main.py`, same failure discipline. -/
def scrape_flipkart (product_name : String) (outcome : FetchOutcome) : Option ScrapeResult :=
  match outcome with
  | FetchOutcome.ok => some (flipkartResult product_name)
  | FetchOutcome.failure => none

/-- The next `INTEGER PRIMARY KEY` for an insert into `prices`. -/
def nextPriceId (db : Db) : Nat :=
  (db.prices.map PriceRow.rowid).foldl max 0 + 1

/-- Statement `INSERT INTO prices (product_id, platform, price, url) VALUES (...)`;
`timestamp` takes its `CURRENT_TIMESTAMP` default. -/
def insertPrice (now product_id : Nat) (r : ScrapeResult) (db : Db) : Db :=
  { db with
      prices := db.prices ++ [PriceRow.mk (nextPriceId db) product_id r.platform r.price r.url now] }

/-- Closure `scrape_all_platforms` (defined inside `search_product`): query each
platform in turn; a platform that returned a result is appended to `results`
and inserted into `prices`, a platform that returned `None` is skipped.  The
two fetch outcomes are independent parameters.  (The embedding gives the
closure a usable database handle; in the deployed endpoint this code never
runs, because `search_product` raises on its `ILIKE` lookup first.) -/
def scrape_all_platforms (q : String) (product_id now : Nat)
    (amazonOutcome flipkartOutcome : FetchOutcome) (db : Db) :
    List ScrapeResult × Db :=
  let (results, db) :=
    match scrape_amazon q amazonOutcome with
    | some a => ([a], insertPrice now product_id a db)
    | none => ([], db)
  match scrape_flipkart q flipkartOutcome with
  | some f => (results ++ [f], insertPrice now product_id f db)
  | none => (results, db)

/-! ## Helper lemmas about the embedded operations -/

theorem pickMin_spec (l : List PriceRow) :
    ∀ r : PriceRow, pickMin r l ∈ r :: l ∧ ∀ x ∈ r :: l, (pickMin r l).price ≤ x.price := by
  induction l with
  | nil =>
    intro r
    refine ⟨List.mem_singleton.mpr rfl, ?_⟩
    intro x hx
    rw [List.mem_singleton.mp hx]
    exact le_refl _
  | cons y ys ih =>
    intro r
    have hstep : pickMin r (y :: ys) = pickMin (if y.price < r.price then y else r) ys := rfl
    obtain ⟨hmem, hle⟩ := ih (if y.price < r.price then y else r)
    constructor
    · rw [hstep]
      rcases List.mem_cons.mp hmem with h | h
      · rw [h]
        split <;> simp
      · simp [h]
    · intro x hx
      rw [hstep]
      have hhead : (pickMin (if y.price < r.price then y else r) ys).price ≤
          (if y.price < r.price then y else r).price :=
        hle _ (List.mem_cons_self _ _)
      have hr : (if y.price < r.price then y else r).price ≤ r.price := by
        split <;> [exact le_of_lt (by assumption); exact le_refl _]
      have hy : (if y.price < r.price then y else r).price ≤ y.price := by
        split <;> [exact le_refl _; exact le_of_not_lt (by assumption)]
      rcases List.mem_cons.mp hx with h | h
      · exact h ▸ hhead.trans hr
      · rcases List.mem_cons.mp h with h' | h'
        · exact h' ▸ hhead.trans hy
        · exact hle x (List.mem_cons_of_mem _ h')

theorem bestObs_mem {product_id : Nat} {db : Db} {b : PriceRow}
    (h : bestObs product_id db = some b) : b ∈ obsFor product_id db := by
  unfold bestObs at h
  rcases hobs : obsFor product_id db with _ | ⟨r, rs⟩
  · rw [hobs] at h; exact absurd h (by simp)
  · rw [hobs] at h
    have := (pickMin_spec rs r).1
    rw [Option.some_inj.mp h] at this
    exact this

theorem bestObs_le {product_id : Nat} {db : Db} {b : PriceRow}
    (h : bestObs product_id db = some b) :
    ∀ x ∈ obsFor product_id db, b.price ≤ x.price := by
  unfold bestObs at h
  rcases hobs : obsFor product_id db with _ | ⟨r, rs⟩
  · rw [hobs] at h; exact absurd h (by simp)
  · rw [hobs] at h
    have := (pickMin_spec rs r).2
    rw [Option.some_inj.mp h] at this
    exact this

theorem bestObs_isSome {product_id : Nat} {db : Db}
    (h : obsFor product_id db ≠ []) : ∃ b, bestObs product_id db = some b := by
  unfold bestObs
  rcases hobs : obsFor product_id db with _ | ⟨r, rs⟩
  · exact absurd hobs h
  · exact ⟨pickMin r rs, rfl⟩

theorem bestObs_eq_none {product_id : Nat} {db : Db}
    (h : obsFor product_id db = []) : bestObs product_id db = none := by
  unfold bestObs
  rw [h]

theorem pyMin_spec (qs : List Rat) :
    ∀ q : Rat, pyMin q qs ∈ q :: qs ∧ ∀ x ∈ q :: qs, pyMin q qs ≤ x := by
  induction qs with
  | nil =>
    intro q
    refine ⟨List.mem_singleton.mpr rfl, ?_⟩
    intro x hx
    rw [List.mem_singleton.mp hx]
    exact le_refl _
  | cons y ys ih =>
    intro q
    have hstep : pyMin q (y :: ys) = pyMin (min q y) ys := rfl
    obtain ⟨hmem, hle⟩ := ih (min q y)
    constructor
    · rw [hstep]
      rcases List.mem_cons.mp hmem with h | h
      · rw [h]
        rcases min_choice q y with h' | h' <;> simp [h']
      · simp [h]
    · intro x hx
      rw [hstep]
      have hhead : pyMin (min q y) ys ≤ min q y := hle _ (List.mem_cons_self _ _)
      rcases List.mem_cons.mp hx with h | h
      · exact h ▸ hhead.trans (min_le_left _ _)
      · rcases List.mem_cons.mp h with h' | h'
        · exact h' ▸ hhead.trans (min_le_right _ _)
        · exact hle x (List.mem_cons_of_mem _ h')

/-- The value `min(...) if prices else 0` computed over a non-empty entry
list is attained among the entries and bounds them below. -/
theorem lowestOf_spec (e : PriceEntry) (es : List PriceEntry) :
    pyMin e.price (es.map PriceEntry.price) ∈ (e :: es).map PriceEntry.price ∧
    ∀ x ∈ e :: es, pyMin e.price (es.map PriceEntry.price) ≤ x.price := by
  obtain ⟨hmem, hle⟩ := pyMin_spec (es.map PriceEntry.price) e.price
  constructor
  · simpa using hmem
  · intro x hx
    rcases List.mem_cons.mp hx with h | h
    · exact h ▸ hle _ (List.mem_cons_self _ _)
    · exact hle _ (List.mem_cons_of_mem _ (List.mem_map_of_mem _ h))

theorem windowRows_of_no_obs {product_id now : Nat} {db : Db}
    (h : obsFor product_id db = []) : windowRows product_id now db = [] := by
  unfold windowRows
  rw [List.filter_eq_nil_iff]
  intro r hr
  have hno := (List.filter_eq_nil_iff.mp h) r hr
  simp only [Bool.and_eq_true, not_and]
  intro hpid
  exact absurd hpid hno

theorem trend_of_no_obs {product_id now : Nat} {db : Db}
    (h : obsFor product_id db = []) : get_price_trend product_id now db = [] := by
  unfold get_price_trend trendPairs trendDays
  rw [windowRows_of_no_obs h]
  rfl

/-- The response row a catalog product contributes to `GET /api/products`. -/
theorem mem_get_all_products (now : Nat) (db : Db) {p : ProductRow} (hp : p ∈ db.products) :
    productEntry now db (p, bestObs p.id db) ∈ get_all_products now db := by
  unfold get_all_products
  apply List.mem_map_of_mem
  rw [List.mem_insertionSort]
  exact List.mem_map_of_mem _ hp

/-- Shape of the success answer of `GET /api/prices/{id}`. -/
theorem get_product_prices_eq_ok {product_id : Nat} {db : Db} {p : ProductRow}
    (hfind : db.products.find? (fun q => q.id == product_id) = some p) :
    ∃ resp, get_product_prices product_id db = Except.ok resp ∧
      resp.product_id = product_id ∧ resp.product_name = p.name ∧
      resp.prices = (((obsFor product_id db).insertionSort tsDesc).take 20).map
        (fun r => PriceEntry.mk r.platform r.price r.url r.timestamp) := by
  unfold get_product_prices
  rw [hfind]
  exact ⟨_, rfl, rfl, rfl, rfl⟩

/-- The three-platform database of the worked example in the specification. -/
def phoneDb : Db :=
  Db.mk [ProductRow.mk 1 "phone" "General"]
    [PriceRow.mk 1 1 "Amazon" 29999 "https://a" 100,
     PriceRow.mk 2 1 "Flipkart" 27999 "https://f" 200,
     PriceRow.mk 3 1 "eBay" 28500 "https://e" 300]
    []

/-- One product, not a single observation. -/
def noObsDb : Db :=
  Db.mk [ProductRow.mk 1 "phone" "General"] [] []

/-- A catalog whose only product name matches the query `phone` up to case. -/
def caseDb : Db :=
  Db.mk [ProductRow.mk 1 "Phone" "General"] [] []

/-- Claim C3 counterexample: `POST /api/alerts` with `product_id = 7` against a
database holding no product at all answers `success` and inserts a row, and so
does a request with a non-positive `target_price`; the handler never fails
with 400 and never withholds the insert. -/
theorem alert_no_validation_cex :
    (∀ p ∈ (Db.mk [] [] []).products, p.id ≠ 7) ∧
    (create_price_alert (AlertInput.mk 7 100 "x") (Db.mk [] [] [])).1 = "success" ∧
    (create_price_alert (AlertInput.mk 7 100 "x") (Db.mk [] [] [])).2.alerts =
      [AlertRow.mk 1 7 100 "x"] ∧
    (create_price_alert (AlertInput.mk 1 (-5) "y") noObsDb).1 = "success" ∧
    (create_price_alert (AlertInput.mk 1 (-5) "y") noObsDb).2.alerts =
      [AlertRow.mk 1 1 (-5) "y"] := by
  refine ⟨?_, rfl, rfl, rfl, rfl⟩
  intro p hp
  simp at hp

/-- Claim C3 as amended: `POST /api/alerts` performs no validation at all: for
every request body and every database state it reports `success` and appends
exactly one `price_alerts` row carrying the values of the request, whether or not
`target_price` is positive and whether or not the product exists. -/
theorem alert_always_inserts (a : AlertInput) (db : Db) :
    (create_price_alert a db).1 = "success" ∧
    (create_price_alert a db).2.alerts =
      db.alerts ++ [AlertRow.mk (nextAlertId db) a.product_id a.target_price a.user_email] ∧
    (create_price_alert a db).2.products = db.products ∧
    (create_price_alert a db).2.prices = db.prices :=
  ⟨rfl, rfl, rfl, rfl⟩

/-- Claim C4, the code bug: `GET /api/search` can never perform its product
match/create step.  The lookup `SELECT id FROM products WHERE name ILIKE ?`
is not SQLite syntax, so `cursor.execute` raises `OperationalError` for every
query of accepted length and every database — even one whose product name
matches the query case-insensitively — and the endpoint answers HTTP 500. -/
theorem search_always_500 :
    (∀ db : Db, search_product "phone" db = Except.error (500, "Internal Server Error")) ∧
    search_product "phone" caseDb = Except.error (500, "Internal Server Error") ∧
    search_product "ph" (Db.mk [] [] []) = Except.error (500, "Internal Server Error") :=
  ⟨fun _ => rfl, rfl, rfl⟩

/-- Claim C8: each platform fetcher maps a raised network/parsing failure to
`none` instead of propagating it, and `scrape_all_platforms` records exactly
the platforms that succeeded — each of the four outcome combinations yields
precisely the results and inserts of the successful platforms, so a failure
of one platform never blocks the other. -/
theorem scrape_fail_soft (q : String) (product_id now : Nat) (db : Db) :
    scrape_amazon q FetchOutcome.failure = none ∧
    scrape_flipkart q FetchOutcome.failure = none ∧
    scrape_all_platforms q product_id now FetchOutcome.failure FetchOutcome.failure db =
      ([], db) ∧
    scrape_all_platforms q product_id now FetchOutcome.failure FetchOutcome.ok db =
      ([flipkartResult q], insertPrice now product_id (flipkartResult q) db) ∧
    scrape_all_platforms q product_id now FetchOutcome.ok FetchOutcome.failure db =
      ([amazonResult q], insertPrice now product_id (amazonResult q) db) ∧
    scrape_all_platforms q product_id now FetchOutcome.ok FetchOutcome.ok db =
      ([amazonResult q, flipkartResult q],
        insertPrice now product_id (flipkartResult q)
          (insertPrice now product_id (amazonResult q) db)) :=
  ⟨rfl, rfl, rfl, rfl, rfl, rfl⟩

/-- Claim C2 counterexample: product 1 of `noObsDb` has zero observations, yet
`GET /api/prices/1` answers successfully with the number `0` as
`lowest_price` (not an absent value), and the `GET /api/products` row for it
likewise carries `lowest_price = 0`. -/
theorem no_obs_zero_cex :
    obsFor 1 noObsDb = [] ∧
    get_product_prices 1 noObsDb = Except.ok (PricesResponse.mk 1 "phone" [] 0) ∧
    (get_all_products 0 noObsDb).map (fun e => (e.id, e.lowest_price, e.platform)) =
      [(1, (0 : Rat), "N/A")] :=
  ⟨rfl, rfl, rfl⟩

/-- Claim C2 as amended: for every product with zero observations the best-price
queries succeed (no error) but report the NUMBER `0` — `GET /api/prices/{id}`
returns `lowest_price = 0` with an empty `prices` array, and `GET
/api/products` lists the product with `lowest_price = 0` and platform `N/A`;
the price value alone cannot distinguish "no data yet" from "price is 0". -/
theorem no_obs_returns_zero (product_id now : Nat) (db : Db) (p : ProductRow)
    (hfind : db.products.find? (fun q => q.id == product_id) = some p)
    (hobs : obsFor product_id db = []) :
    get_product_prices product_id db = Except.ok (PricesResponse.mk product_id p.name [] 0) ∧
    ∃ e ∈ get_all_products now db, e.id = p.id ∧ e.lowest_price = 0 ∧ e.platform = "N/A" := by
  have hpid : p.id = product_id := by
    have := List.find?_some hfind
    simpa using this
  constructor
  · unfold get_product_prices
    rw [hfind, hobs]
    rfl
  · have hbo : bestObs p.id db = none := by
      rw [hpid]
      exact bestObs_eq_none hobs
    refine ⟨productEntry now db (p, bestObs p.id db),
      mem_get_all_products now db (List.mem_of_find?_eq_some hfind), ?_⟩
    rw [hbo]
    exact ⟨rfl, rfl, rfl⟩

/-- Claim C2 witness: the amended statement at `noObsDb`, product 1. -/
theorem no_obs_returns_zero_witness :
    get_product_prices 1 noObsDb = Except.ok (PricesResponse.mk 1 "phone" [] 0) ∧
    ∃ e ∈ get_all_products 0 noObsDb, e.id = 1 ∧ e.lowest_price = 0 ∧ e.platform = "N/A" :=
  no_obs_returns_zero 1 0 noObsDb (ProductRow.mk 1 "phone" "General") rfl rfl

/-- Claim C10: `GET /api/products` lists every catalog product, and a product
with zero observations appears with `lowest_price = 0`, platform `N/A`, url
`#` and an empty `price_trend`, rather than being excluded or marked absent. -/
theorem products_catalog_complete (now : Nat) (db : Db) (p : ProductRow)
    (hp : p ∈ db.products) :
    ∃ e ∈ get_all_products now db, e.id = p.id ∧ e.name = p.name ∧ e.category = p.category ∧
      (obsFor p.id db = [] →
        e.lowest_price = 0 ∧ e.platform = "N/A" ∧ e.url = "#" ∧ e.price_trend = []) := by
  refine ⟨productEntry now db (p, bestObs p.id db), mem_get_all_products now db hp, ?_⟩
  by_cases hobs : obsFor p.id db = []
  · rw [bestObs_eq_none hobs]
    exact ⟨rfl, rfl, rfl, fun _ => ⟨rfl, rfl, rfl, trend_of_no_obs hobs⟩⟩
  · obtain ⟨b, hb⟩ := bestObs_isSome hobs
    rw [hb]
    exact ⟨rfl, rfl, rfl, fun h => absurd h hobs⟩

/-- Claim C10 witness: the zero-observation product of `noObsDb` is listed with
the coalesced defaults. -/
theorem products_catalog_complete_witness :
    ∃ e ∈ get_all_products 0 noObsDb, e.id = 1 ∧ e.lowest_price = 0 ∧
      e.platform = "N/A" ∧ e.url = "#" ∧ e.price_trend = [] := by
  obtain ⟨e, he, hid, _, _, himp⟩ :=
    products_catalog_complete 0 noObsDb (ProductRow.mk 1 "phone" "General")
      (List.mem_singleton.mpr rfl)
  obtain ⟨h1, h2, h3, h4⟩ := himp rfl
  exact ⟨e, he, hid, h1, h2, h3, h4⟩

/-- Claim C7: `GET /api/prices/{product_id}` answers 404 (and returns no price
rows) exactly when no catalog product carries the requested id; when one
does, it answers with the id, name, price rows and
`lowest_price`. -/
theorem prices_404_or_found (product_id : Nat) (db : Db) :
    ((∀ p ∈ db.products, p.id ≠ product_id) →
      get_product_prices product_id db = Except.error 404) ∧
    ∀ p, db.products.find? (fun q => q.id == product_id) = some p →
      ∃ resp, get_product_prices product_id db = Except.ok resp ∧
        resp.product_id = product_id ∧ resp.product_name = p.name := by
  constructor
  · intro h
    have hnone : db.products.find? (fun q => q.id == product_id) = none := by
      rw [List.find?_eq_none]
      intro x hx
      simpa using h x hx
    unfold get_product_prices
    rw [hnone]
  · intro p hfind
    obtain ⟨resp, h1, h2, h3, _⟩ := get_product_prices_eq_ok hfind
    exact ⟨resp, h1, h2, h3⟩

/-- Claim C7 witness: 404 for the unknown id 42, success for product 1. -/
theorem prices_404_or_found_witness :
    get_product_prices 42 phoneDb = Except.error 404 ∧
    ∃ resp, get_product_prices 1 phoneDb = Except.ok resp ∧
      resp.product_id = 1 ∧ resp.product_name = "phone" := by
  constructor
  · exact (prices_404_or_found 42 phoneDb).1 (by decide)
  · exact (prices_404_or_found 1 phoneDb).2 (ProductRow.mk 1 "phone" "General") rfl

/-- Claim C6: `GET /api/deals` returns at most 10 entries, sorted non-decreasing
by price; every entry stems from a catalog product with at least one
observation, and its price is the best (minimum) observed price of that product. -/
theorem deals_sorted_bounded (db : Db) :
    (get_best_deals db).length ≤ 10 ∧
    List.Pairwise (fun a b => a.price ≤ b.price) (get_best_deals db) ∧
    ∀ d ∈ get_best_deals db, ∃ p ∈ db.products, p.id = d.id ∧ p.name = d.name ∧
      obsFor p.id db ≠ [] ∧
      (∀ r ∈ obsFor p.id db, d.price ≤ r.price) ∧
      d.price ∈ (obsFor p.id db).map PriceRow.price := by
  refine ⟨?_, ?_, ?_⟩
  · unfold get_best_deals
    rw [List.length_take]
    exact min_le_left _ _
  · have hs : List.Sorted dealLe
        ((db.products.filterMap (fun p => (bestObs p.id db).map
          (fun b => Deal.mk p.id p.name b.price b.platform))).insertionSort dealLe) :=
      List.sorted_insertionSort dealLe _
    exact List.Pairwise.sublist (List.take_sublist _ _) hs
  · intro d hd
    have hd' : d ∈ db.products.filterMap (fun p => (bestObs p.id db).map
        (fun b => Deal.mk p.id p.name b.price b.platform)) := by
      have := List.mem_of_mem_take hd
      rwa [List.mem_insertionSort] at this
    obtain ⟨p, hp, hmk⟩ := List.mem_filterMap.mp hd'
    obtain ⟨b, hb, hbd⟩ := Option.map_eq_some'.mp hmk
    refine ⟨p, hp, ?_, ?_, List.ne_nil_of_mem (bestObs_mem hb), ?_, ?_⟩
    · rw [← hbd]
    · rw [← hbd]
    · intro r hr
      rw [← hbd]
      exact bestObs_le hb r hr
    · rw [← hbd]
      exact List.mem_map_of_mem _ (bestObs_mem hb)

/-- Claim C6 witness: on the worked-example database the single deal is product
1 at its minimum 27999. -/
theorem deals_sorted_bounded_witness :
    (get_best_deals phoneDb).length ≤ 10 ∧
    ∃ p ∈ phoneDb.products, p.id = (Deal.mk 1 "phone" 27999 "Flipkart").id ∧
      p.name = (Deal.mk 1 "phone" 27999 "Flipkart").name ∧
      obsFor p.id phoneDb ≠ [] ∧
      (∀ r ∈ obsFor p.id phoneDb, (Deal.mk 1 "phone" 27999 "Flipkart").price ≤ r.price) ∧
      (Deal.mk 1 "phone" 27999 "Flipkart").price ∈ (obsFor p.id phoneDb).map PriceRow.price := by
  obtain ⟨h1, _, h3⟩ := deals_sorted_bounded phoneDb
  exact ⟨h1, h3 (Deal.mk 1 "phone" 27999 "Flipkart") (by decide)⟩

theorem tsDesc_le {a b : PriceRow} (h : tsDesc a b) : b.timestamp ≤ a.timestamp := by
  rcases h with h | ⟨h, _⟩
  · exact le_of_lt h
  · exact le_of_eq h.symm

/-- Every listed trend day is a day with at least one observation in the
trailing window. -/
theorem trendDays_has_obs {product_id now : Nat} {db : Db} {d : Nat}
    (hd : d ∈ trendDays product_id now db) : dayPrices product_id now d db ≠ [] := by
  have hd1 : d ∈ ((windowRows product_id now db).map (fun r => dayOf r.timestamp)).dedup := by
    have := List.mem_of_mem_take hd
    rwa [List.mem_insertionSort] at this
  rw [List.mem_dedup] at hd1
  obtain ⟨r, hr, hrd⟩ := List.mem_map.mp hd1
  apply List.ne_nil_of_mem
  apply List.mem_map_of_mem PriceRow.price
  rw [List.mem_filter]
  exact ⟨hr, by simp [hrd]⟩

/-- The listed trend days are strictly descending before the final reverse. -/
theorem trendDays_sorted (product_id now : Nat) (db : Db) :
    List.Pairwise (fun a b => b < a) (trendDays product_id now db) := by
  have hsorted : List.Pairwise natGe (trendDays product_id now db) :=
    List.Pairwise.sublist (List.take_sublist _ _) (List.sorted_insertionSort natGe _)
  have hnodup : (trendDays product_id now db).Nodup :=
    List.Nodup.sublist (List.take_sublist _ _)
      ((List.perm_insertionSort natGe _).nodup_iff.mpr (List.nodup_dedup _))
  exact (hsorted.and hnodup).imp (fun h => lt_of_le_of_ne h.1 h.2.symm)

/-- Claim C5: the price-trend operation returns at most 7 entries; each entry is
the exact mean of the prices observed that day within the trailing 7-day window;
days without observations never contribute an entry; and the entries are
ordered chronologically ascending (their underlying days strictly increase). -/
theorem trend_bounded_ascending (product_id now : Nat) (db : Db) :
    get_price_trend product_id now db = (trendPairs product_id now db).map Prod.snd ∧
    (get_price_trend product_id now db).length ≤ 7 ∧
    List.Pairwise (fun x y => x.1 < y.1) (trendPairs product_id now db) ∧
    (∀ x ∈ trendPairs product_id now db,
      dayPrices product_id now x.1 db ≠ [] ∧ x.2 = mean (dayPrices product_id now x.1 db)) ∧
    (∀ d, dayPrices product_id now d db = [] →
      ∀ x ∈ trendPairs product_id now db, x.1 ≠ d) := by
  have hmem : ∀ x ∈ trendPairs product_id now db,
      dayPrices product_id now x.1 db ≠ [] ∧ x.2 = mean (dayPrices product_id now x.1 db) := by
    intro x hx
    rw [trendPairs, List.mem_reverse] at hx
    obtain ⟨d, hd, hdx⟩ := List.mem_map.mp hx
    rw [← hdx]
    exact ⟨trendDays_has_obs hd, rfl⟩
  refine ⟨rfl, ?_, ?_, hmem, ?_⟩
  · rw [get_price_trend, List.length_map, trendPairs, List.length_reverse, List.length_map,
      trendDays, List.length_take]
    exact min_le_left _ _
  · rw [trendPairs, List.pairwise_reverse, List.pairwise_map]
    exact trendDays_sorted product_id now db
  · intro d hempty x hx hxd
    exact (hmem x hx).1 (hxd ▸ hempty)

/-- Claim C5 witness: on the worked-example database the trend has one point,
the mean of day 0. -/
theorem trend_bounded_ascending_witness :
    (get_price_trend 1 400 phoneDb).length ≤ 7 ∧
    dayPrices 1 400 0 phoneDb ≠ [] := by
  obtain ⟨_, hlen, _, hmem, _⟩ := trend_bounded_ascending 1 400 phoneDb
  have hpairs : trendPairs 1 400 phoneDb = [(0, mean (dayPrices 1 400 0 phoneDb))] := rfl
  have hx := hmem (0, mean (dayPrices 1 400 0 phoneDb))
    (by rw [hpairs]; exact List.mem_singleton.mpr rfl)
  exact ⟨hlen, hx.1⟩

/-- Expression `min(...) if prices else 0` over a non-empty entry list: attained and a
lower bound. -/
theorem lowest_of_entries (e : PriceEntry) (es : List PriceEntry) :
    (match (e :: es).map PriceEntry.price with
      | [] => (0 : Rat)
      | q :: qs => pyMin q qs) ∈ (e :: es).map PriceEntry.price ∧
    ∀ x ∈ e :: es, (match (e :: es).map PriceEntry.price with
      | [] => (0 : Rat)
      | q :: qs => pyMin q qs) ≤ x.price :=
  lowestOf_spec e es

/-- Claim C9: `GET /api/prices/{id}` returns at most 20 rows — precisely the
first 20 of the timestamp-descending ordering of all observations of the
product, listed most-recent-first, every returned row at least as recent
as every omitted one — and its `lowest_price` is the minimum over exactly
those returned rows. -/
theorem prices_recent_window_min (product_id : Nat) (db : Db) (p : ProductRow)
    (hfind : db.products.find? (fun q => q.id == product_id) = some p) :
    ∃ resp, get_product_prices product_id db = Except.ok resp ∧
      resp.prices.length ≤ 20 ∧
      resp.prices = (((obsFor product_id db).insertionSort tsDesc).take 20).map
        (fun r => PriceEntry.mk r.platform r.price r.url r.timestamp) ∧
      ((obsFor product_id db).insertionSort tsDesc).Perm (obsFor product_id db) ∧
      List.Pairwise (fun a b => b.timestamp ≤ a.timestamp) resp.prices ∧
      (∀ x ∈ ((obsFor product_id db).insertionSort tsDesc).take 20,
        ∀ y ∈ ((obsFor product_id db).insertionSort tsDesc).drop 20,
          y.timestamp ≤ x.timestamp) ∧
      (resp.prices ≠ [] →
        resp.lowest_price ∈ resp.prices.map PriceEntry.price ∧
        ∀ x ∈ resp.prices, resp.lowest_price ≤ x.price) := by
  have hsorted : List.Pairwise tsDesc ((obsFor product_id db).insertionSort tsDesc) :=
    List.sorted_insertionSort tsDesc _
  have htake : List.Pairwise tsDesc (((obsFor product_id db).insertionSort tsDesc).take 20) :=
    List.Pairwise.sublist (List.take_sublist _ _) hsorted
  unfold get_product_prices
  rw [hfind]
  refine ⟨_, rfl, ?_, rfl, List.perm_insertionSort tsDesc _, ?_, ?_, ?_⟩
  · rw [List.length_map, List.length_take]
    exact min_le_left _ _
  · rw [List.pairwise_map]
    exact htake.imp tsDesc_le
  · intro x hx y hy
    have happ : List.Pairwise tsDesc
        ((((obsFor product_id db).insertionSort tsDesc).take 20) ++
          (((obsFor product_id db).insertionSort tsDesc).drop 20)) := by
      rw [List.take_append_drop]
      exact hsorted
    exact tsDesc_le ((List.pairwise_append.mp happ).2.2 x hx y hy)
  · intro hne
    rcases hl : (((obsFor product_id db).insertionSort tsDesc).take 20).map
        (fun r => PriceEntry.mk r.platform r.price r.url r.timestamp) with _ | ⟨e, es⟩
    · exact absurd hl hne
    · have := lowest_of_entries e es
      rw [← hl] at this
      exact this

/-- Claim C9 witness: on the worked-example database the response holds at most
20 rows and its `lowest_price` is attained among the returned rows. -/
theorem prices_recent_window_min_witness :
    ∃ resp, get_product_prices 1 phoneDb = Except.ok resp ∧
      resp.prices.length ≤ 20 ∧
      resp.lowest_price ∈ resp.prices.map PriceEntry.price := by
  obtain ⟨resp, h1, h2, h3, _, _, _, h7⟩ :=
    prices_recent_window_min 1 phoneDb (ProductRow.mk 1 "phone" "General") rfl
  have hne : resp.prices ≠ [] := by
    rw [h3]
    decide
  exact ⟨resp, h1, h2, (h7 hne).1⟩

/-- Product 1 with 21 observations: the oldest (rowid/timestamp 1) carries the
only minimal price 10, every later one costs 20. -/
def manyRowsDb : Db :=
  Db.mk [ProductRow.mk 1 "phone" "General"]
    ((List.range 21).map (fun i =>
      PriceRow.mk (i + 1) 1 "P" (if i = 0 then 10 else 20) "u" (i + 1)))
    []

set_option maxRecDepth 4000

/-- Product 1 with two observations tied at the minimal price; the later one
(timestamp 20) is on platform `Zebra`, the earlier on `Amazon`. -/
def tieDb : Db :=
  Db.mk [ProductRow.mk 1 "phone" "General"]
    [PriceRow.mk 1 1 "Amazon" 100 "https://a" 10,
     PriceRow.mk 2 1 "Zebra" 100 "https://z" 20]
    []

/-- Claim C1 counterexample: (i) product 1 of `manyRowsDb` has 21 observations
whose true minimum 10 is attained only by the oldest row, yet `GET
/api/prices/1` reports `lowest_price = 20`, the minimum over the 20 most
recent rows only; (ii) in `tieDb` two observations tie at the minimal price
and the claimed tie-break (most-recent timestamp) selects the `Zebra` row,
yet `GET /api/products` reports platform `Amazon`, the first minimal row in
scan order. -/
theorem best_price_claim_cex :
    ((get_product_prices 1 manyRowsDb).toOption.map PricesResponse.lowest_price = some 20) ∧
    ((10 : Rat) ∈ (obsFor 1 manyRowsDb).map PriceRow.price) ∧
    ¬ ((20 : Rat) ≤ 10) ∧
    ((get_all_products 100 tieDb).map (fun e => (e.id, e.platform)) = [(1, "Amazon")]) ∧
    (∃ r ∈ obsFor 1 tieDb, r.price = 100 ∧ r.platform = "Zebra" ∧
      ∀ x ∈ obsFor 1 tieDb, x.timestamp ≤ r.timestamp) ∧
    ("Amazon" : String) ≠ "Zebra" := by
  refine ⟨by decide, by decide, by decide, ?_, by decide, by decide⟩
  decide

/-- The `prices` array built by `get_product_prices` (the list comprehension
over the `LIMIT 20` query). -/
def entriesFor (product_id : Nat) (db : Db) : List PriceEntry :=
  (((obsFor product_id db).insertionSort tsDesc).take 20).map
    (fun r => PriceEntry.mk r.platform r.price r.url r.timestamp)

/-- The `lowest_price` value of `get_product_prices`:
`min([p.price for p in prices]) if prices else 0`. -/
def lowestFor (product_id : Nat) (db : Db) : Rat :=
  match (entriesFor product_id db).map PriceEntry.price with
  | [] => 0
  | q :: qs => pyMin q qs

/-- The success branch of `get_product_prices`, named. -/
theorem get_product_prices_eq (product_id : Nat) (db : Db) (p : ProductRow)
    (hfind : db.products.find? (fun q => q.id == product_id) = some p) :
    get_product_prices product_id db = Except.ok
      (PricesResponse.mk product_id p.name (entriesFor product_id db)
        (lowestFor product_id db)) := by
  unfold get_product_prices entriesFor lowestFor
  rw [hfind]
  rfl

theorem entriesFor_ne_nil {product_id : Nat} {db : Db}
    (hne : obsFor product_id db ≠ []) : entriesFor product_id db ≠ [] := by
  have hs_perm := List.perm_insertionSort tsDesc (obsFor product_id db)
  have hs_ne : (obsFor product_id db).insertionSort tsDesc ≠ [] := by
    intro h0
    apply hne
    have hlen := hs_perm.length_eq
    rw [h0] at hlen
    exact List.length_eq_zero.mp hlen.symm
  unfold entriesFor
  rw [Ne, List.map_eq_nil_iff, List.take_eq_nil_iff]
  push_neg
  exact ⟨by omega, hs_ne⟩

/-- On a non-empty entry list, `lowestFor` is attained and bounds below. -/
theorem lowestFor_spec {product_id : Nat} {db : Db}
    (hne : entriesFor product_id db ≠ []) :
    lowestFor product_id db ∈ (entriesFor product_id db).map PriceEntry.price ∧
    ∀ x ∈ entriesFor product_id db, lowestFor product_id db ≤ x.price := by
  unfold lowestFor
  rcases hE : entriesFor product_id db with _ | ⟨e, es⟩
  · exact absurd hE hne
  · exact lowestOf_spec e es

/-- Claim C1 as amended: for every product with N ≥ 1 observations, the MIN
price of `GET /api/products` equals the true minimum over all N prices, and
its companion platform/url columns come from one minimum-price observation
(the first in table-scan order, per the SQLite bare-column rule for `MIN`,
with the Python falsy-coalescing applied) — not from a latest-timestamp/platform
tie-break; the `lowest_price` of `GET /api/prices/{id}` is the minimum over
only the at-most-20 most recent observations, which equals the true minimum
of all N prices whenever N ≤ 20. -/
theorem best_price_amended (product_id now : Nat) (db : Db) (p : ProductRow)
    (hfind : db.products.find? (fun q => q.id == product_id) = some p)
    (hne : obsFor product_id db ≠ []) :
    (∃ e ∈ get_all_products now db, e.id = p.id ∧
      ∃ b ∈ obsFor product_id db,
        e.lowest_price = b.price ∧
        (∀ r ∈ obsFor product_id db, b.price ≤ r.price) ∧
        e.platform = strOr b.platform "N/A" ∧ e.url = strOr b.url "#") ∧
    (∃ resp, get_product_prices product_id db = Except.ok resp ∧
      resp.lowest_price ∈ resp.prices.map PriceEntry.price ∧
      (∀ x ∈ resp.prices, resp.lowest_price ≤ x.price) ∧
      ((obsFor product_id db).length ≤ 20 →
        resp.lowest_price ∈ (obsFor product_id db).map PriceRow.price ∧
        ∀ r ∈ obsFor product_id db, resp.lowest_price ≤ r.price)) := by
  have hpid : p.id = product_id := by simpa using List.find?_some hfind
  constructor
  · have hne' : obsFor p.id db ≠ [] := by
      rw [hpid]
      exact hne
    obtain ⟨b, hb⟩ := bestObs_isSome hne'
    refine ⟨productEntry now db (p, bestObs p.id db),
      mem_get_all_products now db (List.mem_of_find?_eq_some hfind), ?_⟩
    rw [hb]
    refine ⟨rfl, b, ?_, rfl, ?_, rfl, rfl⟩
    · have := bestObs_mem hb
      rwa [hpid] at this
    · intro r hr
      have hr' : r ∈ obsFor p.id db := by
        rw [hpid]
        exact hr
      exact bestObs_le hb r hr'
  · have hEne := entriesFor_ne_nil hne
    obtain ⟨hmem, hbound⟩ := lowestFor_spec hEne
    have hs_perm := List.perm_insertionSort tsDesc (obsFor product_id db)
    refine ⟨_, get_product_prices_eq product_id db p hfind, hmem, hbound, ?_⟩
    intro hlen
    have hEs : entriesFor product_id db =
        ((obsFor product_id db).insertionSort tsDesc).map
          (fun r => PriceEntry.mk r.platform r.price r.url r.timestamp) := by
      unfold entriesFor
      rw [List.take_of_length_le]
      rw [hs_perm.length_eq]
      exact hlen
    constructor
    · have h1 := hmem
      rw [hEs, List.map_map] at h1
      have h1' : lowestFor product_id db ∈
          ((obsFor product_id db).insertionSort tsDesc).map PriceRow.price := h1
      exact (hs_perm.map PriceRow.price).mem_iff.mp h1'
    · intro r hr
      have hrs : r ∈ (obsFor product_id db).insertionSort tsDesc :=
        hs_perm.mem_iff.mpr hr
      have hre : PriceEntry.mk r.platform r.price r.url r.timestamp ∈
          entriesFor product_id db := by
        rw [hEs]
        exact List.mem_map_of_mem _ hrs
      exact hbound _ hre

/-- Claim C1 witness: the amended statement on the worked-example database,
where the minimum 27999 belongs to Flipkart. -/
theorem best_price_amended_witness :
    (∃ e ∈ get_all_products 400 phoneDb, e.id = 1 ∧
      ∃ b ∈ obsFor 1 phoneDb,
        e.lowest_price = b.price ∧
        (∀ r ∈ obsFor 1 phoneDb, b.price ≤ r.price) ∧
        e.platform = strOr b.platform "N/A" ∧ e.url = strOr b.url "#") ∧
    (∃ resp, get_product_prices 1 phoneDb = Except.ok resp ∧
      resp.lowest_price ∈ resp.prices.map PriceEntry.price ∧
      (∀ x ∈ resp.prices, resp.lowest_price ≤ x.price) ∧
      ((obsFor 1 phoneDb).length ≤ 20 →
        resp.lowest_price ∈ (obsFor 1 phoneDb).map PriceRow.price ∧
        ∀ r ∈ obsFor 1 phoneDb, resp.lowest_price ≤ r.price)) :=
  best_price_amended 1 400 phoneDb (ProductRow.mk 1 "phone" "General") rfl (by decide)
